import Mathlib

/-!
Shallow embedding of the FiguraJustCommunicateServer relay (src/main.py):
the schema validator, the session registry (the CLIENTS and USER_ID_MAP
dictionaries), the registration protocol, the message router, the
whitelist commands and the per-connection dispatch loop, together with
theorems checking the specification claims against this embedding.
-/

set_option autoImplicit false

namespace Relay

mutual
/-- A decoded JSON value as Python represents it: strings, integers,
booleans, lists, dicts (insertion-ordered key/value pairs) and None.
Mutual with PyList and PyDict so that decidable equality is derivable. -/
inductive PyVal where
  | str (s : String)
  | int (n : Int)
  | bool (b : Bool)
  | list (xs : PyList)
  | dict (es : PyDict)
  | none
deriving DecidableEq, Repr

inductive PyList where
  | nil
  | cons (hd : PyVal) (tl : PyList)
deriving DecidableEq, Repr

inductive PyDict where
  | nil
  | cons (k : String) (v : PyVal) (tl : PyDict)
deriving DecidableEq, Repr
end

/-- Build a PyDict from a list of key/value pairs (insertion order kept). -/
def PyDict.ofList : List (String × PyVal) → PyDict
  | [] => .nil
  | (k, v) :: rest => .cons k v (PyDict.ofList rest)

/-- Python d.get(k) on a decoded dict (keys are unique after json.loads). -/
def PyDict.get (k : String) : PyDict → Option PyVal
  | .nil => Option.none
  | .cons k2 v rest => if k2 = k then some v else PyDict.get k rest

/-- Python membership test k in d on a decoded dict. -/
def PyDict.hasKey (k : String) (d : PyDict) : Bool :=
  (PyDict.get k d).isSome

/-- Python membership test x in l on a list or set of values. -/
def PyList.mem (x : PyVal) : PyList → Bool
  | .nil => false
  | .cons h t => x == h || PyList.mem x t

/-- Python set(l): one copy of every element.  A Python set iterates in an
unspecified order, so any deduplication order is a faithful model; this one
keeps the last copy of each element. -/
def PyList.toSet : PyList → PyList
  | .nil => .nil
  | .cons h t => if PyList.mem h t then PyList.toSet t else .cons h (PyList.toSet t)

/-- Python s.add(x) on a set modelled as a duplicate-free list. -/
def PyList.add (x : PyVal) (l : PyList) : PyList :=
  if PyList.mem x l then l else .cons x l

/-- Python s.discard(x) on a set modelled as a duplicate-free list:
drop every copy of x, no error when absent. -/
def PyList.discard (x : PyVal) : PyList → PyList
  | .nil => .nil
  | .cons h t => if h == x then PyList.discard x t else .cons h (PyList.discard x t)

/-- Python truthiness of a value, as used by if-tests in the source. -/
def pyTruthy : PyVal → Bool
  | .str s => s != ""
  | .int n => n != 0
  | .bool b => b
  | .list xs => xs != .nil
  | .dict es => es != .nil
  | .none => false

/-- First-match association-list lookup: Python dict access d.get(k)
for the registry dictionaries (their keys stay unique). -/
def dget {α β : Type} [DecidableEq α] (k : α) : List (α × β) → Option β
  | [] => Option.none
  | (k2, v) :: rest => if k2 = k then some v else dget k rest

/-- Python membership test k in d on a registry dictionary. -/
def dmem {α β : Type} [DecidableEq α] (k : α) (d : List (α × β)) : Bool :=
  (dget k d).isSome

/-- Python dict assignment d[k] = v: replace in place when the key exists
(Python keeps the original insertion position), else append at the end. -/
def dinsert {α β : Type} [DecidableEq α] (k : α) (v : β) : List (α × β) → List (α × β)
  | [] => [(k, v)]
  | (k2, v2) :: rest => if k2 = k then (k, v) :: rest else (k2, v2) :: dinsert k v rest

/-- Python d.pop(k, None): drop the entry with key k when present. -/
def dpop {α β : Type} [DecidableEq α] (k : α) : List (α × β) → List (α × β)
  | [] => []
  | (k2, v2) :: rest => if k2 = k then rest else (k2, v2) :: dpop k rest

/-! ### Schema validator (src/main.py, validate_schema) -/

/-- The expected type of a schema field: the second components of the
schema table in validate_schema (str, list, bool, object). -/
inductive PyType where
  | str
  | list
  | bool
  | obj
deriving DecidableEq, Repr

/-- Python isinstance check against a schema entry; object accepts
everything (the source skips the isinstance test for object). -/
def typeCheck : PyType → PyVal → Bool
  | .obj, _ => true
  | .str, .str _ => true
  | .str, _ => false
  | .list, .list _ => true
  | .list, _ => false
  | .bool, .bool _ => true
  | .bool, _ => false

/-- The schema table of validate_schema: required fields per message type. -/
def schemaFields : String → Option (List (String × PyType))
  | "register" => some [("user_id", .str), ("whitelist", .list)]
  | "message" => some [("recipient_id", .str), ("payload", .obj)]
  | "whitelist_add" => some [("user_id", .str)]
  | "whitelist_remove" => some [("user_id", .str)]
  | "whitelist_toggle_wildcard" => some [("enabled", .bool)]
  | _ => Option.none

/-- validate_schema: type must be a string naming a known message type and
every required field must be present with the declared isinstance type. -/
def validate_schema (d : PyDict) : Bool :=
  match PyDict.get "type" d with
  | some (.str t) =>
    match schemaFields t with
    | Option.none => false
    | some fields =>
      fields.all fun fe =>
        match PyDict.get fe.1 d with
        | Option.none => false
        | some v => typeCheck fe.2 v
  | _ => false

/-! ### Sessions and the registry -/

/-- The Python list literal with the single element the string star. -/
def starList : PyList := .cons (.str "*") .nil

/-- The runtime representation of a whitelist inside a session.
wildcardList is the Python list whose one element is the string star;
allowed is a Python set of values (modelled as a duplicate-free PyList);
emptyDict is the Python empty dict, the value the literal on source line
195 actually builds (an empty dict, not an empty set). -/
inductive Whitelist where
  | wildcardList
  | allowed (elems : PyList)
  | emptyDict
deriving DecidableEq, Repr

/-- Source line 99: the stored whitelist is the wildcard list itself when
the supplied list equals it, else set(whitelist). -/
def toWhitelist (wl : PyList) : Whitelist :=
  if wl = starList then .wildcardList else .allowed wl.toSet

/-- Python whitelist == the wildcard list: a set or dict never equals a
list, and the only list a stored whitelist can be is the wildcard list. -/
def wlEqStarList : Whitelist → Bool
  | .wildcardList => true
  | _ => false

/-- Python sender_id in whitelist: list membership on the wildcard list,
set membership on a set, key membership on the (empty) dict. -/
def wlMember (uid : String) : Whitelist → Bool
  | .wildcardList => uid == "*"
  | .allowed l => PyList.mem (.str uid) l
  | .emptyDict => false

/-- The per-client record stored in CLIENTS. -/
structure Session where
  user_id : String
  room_name : String
  whitelist : Whitelist
deriving DecidableEq, Repr

/-- An opaque connection handle (one per websocket). -/
abbrev Conn := Nat

/-- The global server state: CLIENTS maps connections to sessions,
USER_ID_MAP maps user ids back to connections. -/
structure ServerState where
  clients : List (Conn × Session)
  user_id_map : List (String × Conn)
deriving DecidableEq, Repr

/-! ### Registration protocol (src/main.py, register_client) -/

/-- What the one awaited first receive can produce: a timeout, a transport
closure, a frame that json.loads rejects, or a decoded JSON object. -/
inductive RegEvent where
  | timeout
  | closed
  | undecodable
  | frame (d : PyDict)
deriving DecidableEq, Repr

/-- The outcome of register_client: success, failure after the server sent
a close frame with the given code and reason, or silent failure in which
the server sent nothing at all. -/
inductive RegOutcome where
  | success
  | failClosed (code : Nat) (reason : String)
  | failSilent
deriving DecidableEq, Repr

/-- register_client: waits for the first frame; timeout, undecodable frame
and transport closure abort silently; an invalid or non-register message
closes with 1002; an empty or taken user_id closes with 1008; otherwise
both registry dictionaries gain the new entry. -/
def register_client (st : ServerState) (conn : Conn) (room : String) :
    RegEvent → ServerState × RegOutcome
  | .timeout => (st, .failSilent)
  | .closed => (st, .failSilent)
  | .undecodable => (st, .failSilent)
  | .frame d =>
    if validate_schema d = true ∧ PyDict.get "type" d = some (.str "register") then
      match PyDict.get "user_id" d, PyDict.get "whitelist" d with
      | some (.str uid), some (.list wl) =>
        if uid = "" ∨ dmem uid st.user_id_map = true then
          (st, .failClosed 1008 "User ID is invalid or already in use.")
        else
          (⟨dinsert conn ⟨uid, room, toWhitelist wl⟩ st.clients,
            dinsert uid conn st.user_id_map⟩, .success)
      | _, _ => (st, .failSilent)
    else
      (st, .failClosed 1002 "Protocol error: First message must be a valid 'register' type.")

/-- unregister_client: CLIENTS.pop(ws, None), and when a session was
present also USER_ID_MAP.pop(user_id, None). -/
def unregister_client (st : ServerState) (conn : Conn) : ServerState :=
  match dget conn st.clients with
  | Option.none => st
  | some info => ⟨dpop conn st.clients, dpop info.user_id st.user_id_map⟩

/-! ### Message router (src/main.py, handle_direct_message) -/

/-- The generic failure response of handle_direct_message, built once and
sent unchanged on every non-delivery, whatever its cause. -/
def genericFailure (rid : String) : PyVal :=
  .dict (PyDict.ofList
    [("type", .str "error"),
     ("message", .str ("Could not deliver message to '" ++ rid ++
       "'. The user may be offline or has not whitelisted you."))])

/-- handle_direct_message: resolves the recipient, applies the room and
whitelist checks, and produces the outbound sends (connection, JSON value).
The result is none exactly where the Python code would raise a KeyError
(unregistered sender, registry views out of step, schema-guaranteed field
missing); no registry mutation ever happens here. -/
def handle_direct_message (st : ServerState) (sender_ws : Conn) (d : PyDict) :
    Option (List (Conn × PyVal)) :=
  match dget sender_ws st.clients with
  | Option.none => Option.none
  | some sender_info =>
    match PyDict.get "recipient_id" d with
    | some (.str rid) =>
      match dget rid st.user_id_map with
      | Option.none => some [(sender_ws, genericFailure rid)]
      | some recipient_ws =>
        match dget recipient_ws st.clients with
        | Option.none => Option.none
        | some recipient_info =>
          let is_in_room : Bool := recipient_info.room_name == sender_info.room_name
          let is_whitelisted : Bool :=
            wlEqStarList recipient_info.whitelist ||
              wlMember sender_info.user_id recipient_info.whitelist
          if is_in_room && is_whitelisted then
            match PyDict.get "payload" d with
            | Option.none => Option.none
            | some p =>
              some [(recipient_ws, .dict (PyDict.ofList
                [("type", .str "incoming_message"),
                 ("sender_id", .str sender_info.user_id),
                 ("payload", p)]))]
          else
            some [(sender_ws, genericFailure rid)]
    | _ => Option.none

/-! ### Whitelist commands (src/main.py, handle_whitelist_command and
handle_whitelist_toggle) -/

/-- handle_whitelist_command: add or remove one user id in the calling
session's whitelist and acknowledge with the resulting whitelist.  The
result is none where Python would raise: KeyError for an unregistered
caller or missing field, AttributeError when the add or discard method is
called on the empty dict left behind by a previous wildcard removal. -/
def handle_whitelist_command (st : ServerState) (ws : Conn) (d : PyDict) :
    Option (ServerState × List (Conn × PyVal)) :=
  match dget ws st.clients with
  | Option.none => Option.none
  | some info =>
    match PyDict.get "user_id" d, PyDict.get "type" d with
    | some (.str u), some (.str cmd) =>
      let step : Option (Whitelist × String) :=
        if cmd = "whitelist_add" then
          match info.whitelist with
          | .wildcardList =>
            some (.allowed (.cons (.str u) .nil), "converted from wildcard and added")
          | .allowed l => some (.allowed (l.add (.str u)), "added")
          | .emptyDict => Option.none
        else if cmd = "whitelist_remove" then
          match info.whitelist with
          | .wildcardList => some (.emptyDict, "removed")
          | .allowed l => some (.allowed (l.discard (.str u)), "removed")
          | .emptyDict => Option.none
        else some (info.whitelist, "")
      match step with
      | Option.none => Option.none
      | some (nw, act) =>
        let cur : PyVal :=
          match nw with
          | .allowed l => .list l
          | .wildcardList => .list starList
          | .emptyDict => .dict .nil
        some (⟨dinsert ws ⟨info.user_id, info.room_name, nw⟩ st.clients, st.user_id_map⟩,
          [(ws, .dict (PyDict.ofList
            [("type", .str "whitelist_updated"),
             ("message", .str ("User '" ++ u ++ "' was " ++ act ++ ".")),
             ("current_whitelist", cur)]))])
    | _, _ => Option.none

/-- handle_whitelist_toggle: enabling stores the wildcard list, disabling
stores a true empty set (set(), not the dict literal); the acknowledgement
renders the stored whitelist as a list. -/
def handle_whitelist_toggle (st : ServerState) (ws : Conn) (d : PyDict) :
    Option (ServerState × List (Conn × PyVal)) :=
  match dget ws st.clients with
  | Option.none => Option.none
  | some info =>
    match PyDict.get "enabled" d with
    | Option.none => Option.none
    | some v =>
      let nw : Whitelist := if pyTruthy v then .wildcardList else .allowed .nil
      let status : String :=
        if pyTruthy v then "enabled (accepting from all in room)"
        else "disabled (accepting from no one)"
      let cur : PyVal :=
        match nw with
        | .wildcardList => .list starList
        | .allowed l => .list l
        | .emptyDict => .list .nil
      some (⟨dinsert ws ⟨info.user_id, info.room_name, nw⟩ st.clients, st.user_id_map⟩,
        [(ws, .dict (PyDict.ofList
          [("type", .str "whitelist_updated"),
           ("message", .str ("Wildcard whitelist has been " ++ status ++ ".")),
           ("current_whitelist", cur)]))])

/-! ### Connection lifecycle (src/main.py, main_handler) -/

/-- One frame received in the Active state: either json.loads rejects it
or it decodes to a JSON object. -/
inductive FrameEvent where
  | undecodable
  | frame (d : PyDict)
deriving DecidableEq, Repr

/-- One iteration of the Active receive loop: undecodable and
schema-invalid frames are silently skipped, valid frames dispatch through
the handler map; a type with no handler (register among them) is skipped.
none marks the unreachable-after-validation KeyError paths. -/
def active_step (st : ServerState) (ws : Conn) :
    FrameEvent → Option (ServerState × List (Conn × PyVal))
  | .undecodable => some (st, [])
  | .frame d =>
    if validate_schema d = true then
      match PyDict.get "type" d with
      | some (.str t) =>
        if t = "message" then
          match handle_direct_message st ws d with
          | Option.none => Option.none
          | some outs => some (st, outs)
        else if t = "whitelist_add" ∨ t = "whitelist_remove" then
          handle_whitelist_command st ws d
        else if t = "whitelist_toggle_wildcard" then
          handle_whitelist_toggle st ws d
        else
          some (st, [])
      | _ => Option.none
    else
      some (st, [])

/-- Python path.strip of the slash character: remove every leading and
every trailing slash from the request path. -/
def stripSlashes (s : String) : String :=
  String.mk (((s.toList.dropWhile (· = '/')).reverse.dropWhile (· = '/')).reverse)

/-- What main_handler does before the Active loop: either it closes the
connection because the stripped path is empty, or registration ran and
ended with the given outcome. -/
inductive SetupResult where
  | closedNoRoom (code : Nat) (reason : String)
  | regResult (r : RegOutcome)
deriving DecidableEq, Repr

/-- The prelude of main_handler: derive the room name from the request
path, close with 1008 when it is empty, otherwise run register_client on
the first receive event. -/
def main_handler_setup (st : ServerState) (conn : Conn) (path : String) (ev : RegEvent) :
    ServerState × SetupResult :=
  let room := stripSlashes path
  if room = "" then
    (st, .closedNoRoom 1008 "Room name must be provided in the URL path (e.g., /my-room).")
  else
    let r := register_client st conn room ev
    (r.1, .regResult r.2)

/-! ### Registry invariants -/

/-- The entry a registration adds to USER_ID_MAP, as a function of the
entry it adds to CLIENTS. -/
def flipEntry (p : Conn × Session) : String × Conn := (p.2.user_id, p.1)

/-- The inductive invariant of the two registry dictionaries: USER_ID_MAP
is entry for entry the reverse of CLIENTS, connection keys are unique and
user ids of registered sessions are unique. -/
def RegistryInv (st : ServerState) : Prop :=
  st.user_id_map = st.clients.map flipEntry ∧
    (st.clients.map Prod.fst).Nodup ∧
    (st.clients.map (fun p => p.2.user_id)).Nodup

/-- The consistency property the specification states for the registry:
every registered connection maps back to itself through USER_ID_MAP, and
the two dictionaries have the same cardinality. -/
def RegistryConsistent (st : ServerState) : Prop :=
  (∀ c s, dget c st.clients = some s → dget s.user_id st.user_id_map = some c) ∧
    st.clients.length = st.user_id_map.length

/-! ### Dictionary lemmas -/

theorem dget_mem {α β : Type} [DecidableEq α] {k : α} {v : β} :
    ∀ {d : List (α × β)}, dget k d = some v → (k, v) ∈ d := by
  intro d
  induction d with
  | nil => intro h; simp [dget] at h
  | cons e rest ih =>
    intro h
    rw [dget] at h
    by_cases hk : e.1 = k
    · rw [if_pos hk] at h
      have he : e = (k, v) := by cases e; simp_all
      rw [← he]
      exact List.mem_cons_self e rest
    · rw [if_neg hk] at h
      exact List.mem_cons_of_mem e (ih h)

theorem dget_eq_none_iff {α β : Type} [DecidableEq α] {k : α} :
    ∀ {d : List (α × β)}, dget k d = Option.none ↔ k ∉ d.map Prod.fst := by
  intro d
  induction d with
  | nil => simp [dget]
  | cons e rest ih =>
    rw [dget]
    by_cases hk : e.1 = k
    · rw [if_pos hk]
      simp [hk]
    · rw [if_neg hk]
      have hk2 : ¬k = e.1 := fun h => hk h.symm
      simp [ih, hk2]

theorem dinsert_of_fresh {α β : Type} [DecidableEq α] {k : α} (v : β) :
    ∀ {d : List (α × β)}, dget k d = Option.none → dinsert k v d = d ++ [(k, v)] := by
  intro d
  induction d with
  | nil => intro _; rfl
  | cons e rest ih =>
    intro h
    rw [dget] at h
    by_cases hk : e.1 = k
    · rw [if_pos hk] at h; cases h
    · rw [if_neg hk] at h
      cases e
      rw [dinsert, if_neg hk, ih h]
      simp

theorem dget_dinsert_self {α β : Type} [DecidableEq α] {k : α} (v : β) :
    ∀ (d : List (α × β)), dget k (dinsert k v d) = some v := by
  intro d
  induction d with
  | nil => simp [dinsert, dget]
  | cons e rest ih =>
    rw [dinsert]
    by_cases hk : e.1 = k
    · rw [if_pos hk, dget, if_pos rfl]
    · rw [if_neg hk, dget, if_neg hk]
      exact ih

theorem dpop_sublist {α β : Type} [DecidableEq α] (k : α) :
    ∀ (d : List (α × β)), (dpop k d).Sublist d := by
  intro d
  induction d with
  | nil => simp [dpop]
  | cons e rest ih =>
    rw [dpop]
    by_cases hk : e.1 = k
    · rw [if_pos hk]
      exact List.sublist_cons_self e rest
    · rw [if_neg hk]
      exact List.Sublist.cons₂ e ih

/-! ### Registry invariant lemmas -/

theorem dget_flip {clients : List (Conn × Session)} {c : Conn} {s : Session}
    (hnod : (clients.map (fun p => p.2.user_id)).Nodup)
    (hget : dget c clients = some s) :
    dget s.user_id (clients.map flipEntry) = some c := by
  induction clients with
  | nil => simp [dget] at hget
  | cons e rest ih =>
    obtain ⟨a, b⟩ := e
    rw [dget] at hget
    rw [List.map_cons, List.nodup_cons] at hnod
    by_cases hk : a = c
    · rw [if_pos hk] at hget
      injection hget with hv
      subst hk
      subst hv
      simp [flipEntry, dget]
    · rw [if_neg hk] at hget
      have hmem : s.user_id ∈ rest.map (fun p => p.2.user_id) := by
        have := dget_mem hget
        exact List.mem_map.2 ⟨(c, s), this, rfl⟩
      have hne : (flipEntry (a, b)).1 ≠ s.user_id := by
        intro hcontra
        simp only [flipEntry] at hcontra
        rw [← hcontra] at hmem
        exact hnod.1 hmem
      rw [List.map_cons, dget, if_neg hne]
      exact ih hnod.2 hget

theorem dpop_flip {clients : List (Conn × Session)} {c : Conn} {s : Session}
    (hnod : (clients.map (fun p => p.2.user_id)).Nodup)
    (hget : dget c clients = some s) :
    (dpop c clients).map flipEntry = dpop s.user_id (clients.map flipEntry) := by
  induction clients with
  | nil => simp [dget] at hget
  | cons e rest ih =>
    obtain ⟨a, b⟩ := e
    rw [dget] at hget
    rw [List.map_cons, List.nodup_cons] at hnod
    by_cases hk : a = c
    · rw [if_pos hk] at hget
      injection hget with hv
      subst hk
      subst hv
      simp [flipEntry, dpop]
    · rw [if_neg hk] at hget
      have hmem : s.user_id ∈ rest.map (fun p => p.2.user_id) := by
        have := dget_mem hget
        exact List.mem_map.2 ⟨(c, s), this, rfl⟩
      have hne : (flipEntry (a, b)).1 ≠ s.user_id := by
        intro hcontra
        simp only [flipEntry] at hcontra
        rw [← hcontra] at hmem
        exact hnod.1 hmem
      rw [List.map_cons, dpop, dpop, if_neg hk, if_neg hne, List.map_cons]
      rw [ih hnod.2 hget]

/-- The inductive invariant implies the consistency property the
specification asks for. -/
theorem inv_consistent {st : ServerState} (hinv : RegistryInv st) :
    RegistryConsistent st := by
  obtain ⟨hmap, _, hnodu⟩ := hinv
  constructor
  · intro c s hget
    rw [hmap]
    exact dget_flip hnodu hget
  · rw [hmap, List.length_map]

/-- register_client preserves the inductive invariant for a connection not
yet in the registry, whatever the first receive event was. -/
theorem inv_register {st : ServerState} (conn : Conn) (room : String) (ev : RegEvent)
    (hinv : RegistryInv st) (hfresh : dget conn st.clients = Option.none) :
    RegistryInv (register_client st conn room ev).1 := by
  obtain ⟨hmap, hnodc, hnodu⟩ := hinv
  cases ev with
  | timeout => exact ⟨hmap, hnodc, hnodu⟩
  | closed => exact ⟨hmap, hnodc, hnodu⟩
  | undecodable => exact ⟨hmap, hnodc, hnodu⟩
  | frame d =>
    rw [register_client]
    split
    · split
      · next uid wl _ _ =>
        split
        · exact ⟨hmap, hnodc, hnodu⟩
        · next hno =>
          have hdm : dmem uid st.user_id_map = false := by
            by_cases h : dmem uid st.user_id_map = true
            · exact absurd (Or.inr h) hno
            · exact Bool.not_eq_true _ ▸ Bool.eq_false_iff.2 (fun hc => h hc)
          have huget : dget uid st.user_id_map = Option.none := by
            rw [dmem] at hdm
            exact Option.not_isSome_iff_eq_none.1 (by simp [hdm])
          have huid_notin : uid ∉ st.clients.map (fun p => p.2.user_id) := by
            have h1 := dget_eq_none_iff.1 huget
            rw [hmap] at h1
            intro hc
            apply h1
            rw [List.map_map]
            rcases List.mem_map.1 hc with ⟨p, hp, hpe⟩
            exact List.mem_map.2 ⟨p, hp, by simp [flipEntry, Function.comp, hpe]⟩
          have hconn_notin : conn ∉ st.clients.map Prod.fst := dget_eq_none_iff.1 hfresh
          refine ⟨?_, ?_, ?_⟩
          · show dinsert uid conn st.user_id_map =
              (dinsert conn ⟨uid, room, toWhitelist wl⟩ st.clients).map flipEntry
            rw [dinsert_of_fresh _ hfresh, dinsert_of_fresh _ huget, hmap, List.map_append]
            rfl
          · show ((dinsert conn ⟨uid, room, toWhitelist wl⟩ st.clients).map Prod.fst).Nodup
            rw [dinsert_of_fresh _ hfresh, List.map_append]
            rw [List.nodup_append]
            exact ⟨hnodc, List.nodup_singleton conn,
              by simpa [List.disjoint_right] using hconn_notin⟩
          · show ((dinsert conn ⟨uid, room, toWhitelist wl⟩ st.clients).map
                (fun p => p.2.user_id)).Nodup
            rw [dinsert_of_fresh _ hfresh, List.map_append]
            rw [List.nodup_append]
            exact ⟨hnodu, List.nodup_singleton uid,
              by simpa [List.disjoint_right] using huid_notin⟩
      · exact ⟨hmap, hnodc, hnodu⟩
    · exact ⟨hmap, hnodc, hnodu⟩

/-- unregister_client preserves the inductive invariant. -/
theorem inv_unregister {st : ServerState} (conn : Conn)
    (hinv : RegistryInv st) : RegistryInv (unregister_client st conn) := by
  obtain ⟨hmap, hnodc, hnodu⟩ := hinv
  rw [unregister_client]
  cases hget : dget conn st.clients with
  | none => exact ⟨hmap, hnodc, hnodu⟩
  | some info =>
    refine ⟨?_, ?_, ?_⟩
    · show dpop info.user_id st.user_id_map = (dpop conn st.clients).map flipEntry
      rw [hmap, dpop_flip hnodu hget]
    · exact ((dpop_sublist conn st.clients).map Prod.fst).nodup hnodc
    · exact ((dpop_sublist conn st.clients).map (fun p => p.2.user_id)).nodup hnodu

/-! ### Definitions that follow the wording of the specification, kept
separate from the embedding of the source so the two can be compared -/

/-- The whitelist data model as the specification words it: a tagged union
of exactly two representations, the wildcard marker or a set of values. -/
def wlValidRep (w : Whitelist) : Prop :=
  w = .wildcardList ∨ ∃ l, w = .allowed l

/-- Every element of the list is a string. -/
def allStrings : PyList → Bool
  | .nil => true
  | .cons h t => (match h with | .str _ => true | _ => false) && allStrings t

/-- The validator acceptance condition exactly as claim C3 words it: the
type names one of the five recognized types, every required field is
present with the declared semantic type, and for register the whitelist
must be a list of strings (every element a string). -/
def claimed_valid (d : PyDict) : Bool :=
  match PyDict.get "type" d with
  | some (.str t) =>
    if t = "register" then
      (match PyDict.get "user_id" d with | some (.str _) => true | _ => false) &&
        (match PyDict.get "whitelist" d with
          | some (.list l) => allStrings l
          | _ => false)
    else if t = "message" then
      (match PyDict.get "recipient_id" d with | some (.str _) => true | _ => false) &&
        PyDict.hasKey "payload" d
    else if t = "whitelist_add" ∨ t = "whitelist_remove" then
      match PyDict.get "user_id" d with | some (.str _) => true | _ => false
    else if t = "whitelist_toggle_wildcard" then
      match PyDict.get "enabled" d with | some (.bool _) => true | _ => false
    else false
  | _ => false

/-- The validator acceptance condition as amended: identical to
claimed_valid except that for register the whitelist need only be a list;
its element types are not checked. -/
def amended_valid (d : PyDict) : Bool :=
  match PyDict.get "type" d with
  | some (.str t) =>
    if t = "register" then
      (match PyDict.get "user_id" d with | some (.str _) => true | _ => false) &&
        (match PyDict.get "whitelist" d with | some (.list _) => true | _ => false)
    else if t = "message" then
      (match PyDict.get "recipient_id" d with | some (.str _) => true | _ => false) &&
        PyDict.hasKey "payload" d
    else if t = "whitelist_add" ∨ t = "whitelist_remove" then
      match PyDict.get "user_id" d with | some (.str _) => true | _ => false
    else if t = "whitelist_toggle_wildcard" then
      match PyDict.get "enabled" d with | some (.bool _) => true | _ => false
    else false
  | _ => false

/-- The trailing path segment of a request path: the characters after the
last slash. -/
def trailingSegment (s : String) : String :=
  String.mk ((s.toList.reverse.takeWhile (· ≠ '/')).reverse)

/-- The room name exactly as claim C4 words it: the trailing path segment
of the request path, with leading and trailing slashes removed. -/
def claimedRoomName (path : String) : String :=
  stripSlashes (trailingSegment path)

/-- Membership in an Allowed whitelist, as claims C5 and C6 word it: the
whitelist is the Allowed variant and the user id is one of its members. -/
def allowedMember (uid : String) (w : Whitelist) : Prop :=
  ∃ l, w = .allowed l ∧ PyList.mem (.str uid) l = true

/-- The access condition the source computes is exactly the disjunction
the specification states. -/
theorem code_cond_iff (uid : String) (w : Whitelist) :
    (wlEqStarList w || wlMember uid w) = true ↔
      (w = .wildcardList ∨ allowedMember uid w) := by
  cases w with
  | wildcardList => simp [wlEqStarList, wlMember, allowedMember]
  | allowed l =>
    simp only [wlEqStarList, wlMember, allowedMember, Bool.false_or]
    constructor
    · intro h
      exact Or.inr ⟨l, rfl, h⟩
    · rintro (h | ⟨l2, hl, hm⟩)
      · cases h
      · injection hl with hl2
        rw [hl2]
        exact hm
  | emptyDict =>
    simp [wlEqStarList, wlMember, allowedMember]

/-- Any run of register_client either returns the state unchanged or adds
one entry, keyed by the new connection and its user id, to both views. -/
theorem register_client_state_cases (st : ServerState) (conn : Conn) (room : String)
    (ev : RegEvent) :
    (register_client st conn room ev).1 = st ∨
    ∃ uid wl, (register_client st conn room ev).1 =
      ⟨dinsert conn ⟨uid, room, toWhitelist wl⟩ st.clients,
        dinsert uid conn st.user_id_map⟩ := by
  cases ev with
  | timeout => exact Or.inl rfl
  | closed => exact Or.inl rfl
  | undecodable => exact Or.inl rfl
  | frame d =>
    rw [register_client]
    split
    · split
      · next uid wl _ _ =>
        split
        · exact Or.inl rfl
        · exact Or.inr ⟨uid, wl, rfl⟩
      · exact Or.inl rfl
    · exact Or.inl rfl

/-! ### Claim theorems -/

/-- C9: when registration aborts on a timeout, an undecodable first frame
or a transport closure, register_client fails silently: the outcome
carries no response and no close frame, and the returned state is the
input state unchanged, so neither registry view gains an entry for the
connection or for any user id it attempted to claim. -/
theorem registration_abort_silent (st : ServerState) (conn : Conn) (room : String) :
    register_client st conn room .timeout = (st, .failSilent) ∧
    register_client st conn room .undecodable = (st, .failSilent) ∧
    register_client st conn room .closed = (st, .failSilent) :=
  ⟨rfl, rfl, rfl⟩

/-- C10: a frame that passes schema validation but whose type is register,
received by a registered client in the Active state, is silently ignored:
the dispatch step sends nothing to anyone and changes no state. -/
theorem active_register_frame_ignored (st : ServerState) (ws : Conn) (d : PyDict)
    (hv : validate_schema d = true)
    (ht : PyDict.get "type" d = some (.str "register")) :
    active_step st ws (.frame d) = some (st, []) := by
  rw [active_step, if_pos hv]
  simp only [ht]
  simp

theorem active_register_frame_ignored_witness :
    active_step ⟨[(1, ⟨"a", "lobby", .wildcardList⟩)], [("a", 1)]⟩ 1
      (.frame (PyDict.ofList
        [("type", .str "register"), ("user_id", .str "b"),
          ("whitelist", .list starList)])) =
      some (⟨[(1, ⟨"a", "lobby", .wildcardList⟩)], [("a", 1)]⟩, []) :=
  active_register_frame_ignored _ _ _ (by decide) (by decide)

/-- C1: refuted by the code: whitelist_remove on a session whose whitelist
is the Wildcard marker stores the Python empty dict built by the literal
on source line 195 — a third representation that is neither the Wildcard
marker nor an Allowed set — so the claimed two-variant invariant fails on
a reachable state. -/
theorem whitelist_rep_invariant_broken :
    ((handle_whitelist_command ⟨[(3, ⟨"c", "r1", .wildcardList⟩)], [("c", 3)]⟩ 3
        (PyDict.ofList [("type", .str "whitelist_remove"), ("user_id", .str "z")])).map
      (fun r => (dget 3 r.1.clients).map Session.whitelist)) =
        some (some .emptyDict) ∧
    ¬wlValidRep .emptyDict := by
  constructor
  · decide
  · rintro (h | ⟨l, h⟩) <;> cases h

/-- C2: refuted by the code: whitelist_remove on a Wildcard whitelist
stores the Python empty dict, not Allowed of the empty set, and the
acknowledgement renders the whitelist as the empty JSON object, not as an
empty sequence. -/
theorem wildcard_remove_stores_empty_dict :
    handle_whitelist_command ⟨[(7, ⟨"b", "lobby", .wildcardList⟩)], [("b", 7)]⟩ 7
        (PyDict.ofList [("type", .str "whitelist_remove"), ("user_id", .str "a")]) =
      some (⟨[(7, ⟨"b", "lobby", .emptyDict⟩)], [("b", 7)]⟩,
        [(7, .dict (PyDict.ofList
          [("type", .str "whitelist_updated"),
           ("message", .str "User 'a' was removed."),
           ("current_whitelist", .dict .nil)]))]) ∧
    Whitelist.emptyDict ≠ .allowed .nil ∧
    PyVal.dict .nil ≠ .list .nil :=
  ⟨by decide, by decide, by decide⟩

/-- C7: from the inductive registry invariant, both registry views satisfy
the stated consistency property (every registered connection maps back to
itself through USER_ID_MAP and the cardinalities match), the invariant and
the property are preserved by any registration attempt on a connection not
yet registered, and by any deregistration. -/
theorem registry_views_stay_consistent (st : ServerState) (conn c2 : Conn)
    (room : String) (ev : RegEvent)
    (hinv : RegistryInv st) (hfresh : dget conn st.clients = Option.none) :
    RegistryConsistent st ∧
    RegistryInv (register_client st conn room ev).1 ∧
    RegistryConsistent (register_client st conn room ev).1 ∧
    RegistryInv (unregister_client st c2) ∧
    RegistryConsistent (unregister_client st c2) :=
  ⟨inv_consistent hinv,
   inv_register conn room ev hinv hfresh,
   inv_consistent (inv_register conn room ev hinv hfresh),
   inv_unregister c2 hinv,
   inv_consistent (inv_unregister c2 hinv)⟩

theorem registry_views_stay_consistent_witness :
    RegistryConsistent (⟨[(1, ⟨"a", "lobby", .wildcardList⟩)], [("a", 1)]⟩ : ServerState) ∧
    RegistryInv (register_client ⟨[(1, ⟨"a", "lobby", .wildcardList⟩)], [("a", 1)]⟩ 2
      "lobby" (.frame (PyDict.ofList [("type", .str "register"),
        ("user_id", .str "b"), ("whitelist", .list .nil)]))).1 ∧
    RegistryConsistent (register_client ⟨[(1, ⟨"a", "lobby", .wildcardList⟩)], [("a", 1)]⟩ 2
      "lobby" (.frame (PyDict.ofList [("type", .str "register"),
        ("user_id", .str "b"), ("whitelist", .list .nil)]))).1 ∧
    RegistryInv (unregister_client ⟨[(1, ⟨"a", "lobby", .wildcardList⟩)], [("a", 1)]⟩ 1) ∧
    RegistryConsistent (unregister_client ⟨[(1, ⟨"a", "lobby", .wildcardList⟩)], [("a", 1)]⟩ 1) :=
  registry_views_stay_consistent _ 2 1 "lobby" _ (by constructor <;> decide) (by decide)

/-- C8: a valid register message whose user id is empty or already present
in USER_ID_MAP is rejected: the connection is closed with policy-violation
code 1008, no session is created and the state — both registry views — is
returned unchanged; moreover under the registry invariant no two
registered sessions share a user id. -/
theorem duplicate_or_empty_registration_rejected (st : ServerState)
    (conn c1 c2 : Conn) (room : String) (d : PyDict) (uid : String) (wl : PyList)
    (s1 s2 : Session)
    (hv : validate_schema d = true)
    (ht : PyDict.get "type" d = some (.str "register"))
    (hu : PyDict.get "user_id" d = some (.str uid))
    (hw : PyDict.get "whitelist" d = some (.list wl))
    (hdup : uid = "" ∨ dmem uid st.user_id_map = true) :
    register_client st conn room (.frame d) =
      (st, .failClosed 1008 "User ID is invalid or already in use.") ∧
    (RegistryInv st → dget c1 st.clients = some s1 → dget c2 st.clients = some s2 →
      s1.user_id = s2.user_id → c1 = c2) := by
  constructor
  · rw [register_client, if_pos ⟨hv, ht⟩]
    simp only [hu, hw]
    rw [if_pos hdup]
  · intro hinv h1 h2 he
    have m1 := dget_mem h1
    have m2 := dget_mem h2
    have hpair := List.inj_on_of_nodup_map hinv.2.2 m1 m2 he
    exact congrArg Prod.fst hpair

theorem duplicate_or_empty_registration_rejected_witness :
    register_client ⟨[(1, ⟨"a", "lobby", .wildcardList⟩)], [("a", 1)]⟩ 5 "lobby"
        (.frame (PyDict.ofList [("type", .str "register"), ("user_id", .str "a"),
          ("whitelist", .list .nil)])) =
      (⟨[(1, ⟨"a", "lobby", .wildcardList⟩)], [("a", 1)]⟩,
        .failClosed 1008 "User ID is invalid or already in use.") ∧
    (1 : Conn) = 1 :=
  have h := duplicate_or_empty_registration_rejected
    ⟨[(1, ⟨"a", "lobby", .wildcardList⟩)], [("a", 1)]⟩ 5 1 1 "lobby"
    (PyDict.ofList [("type", .str "register"), ("user_id", .str "a"),
      ("whitelist", .list .nil)]) "a" .nil
    ⟨"a", "lobby", .wildcardList⟩ ⟨"a", "lobby", .wildcardList⟩
    (by decide) (by decide) (by decide) (by decide) (Or.inr (by decide))
  ⟨h.1, h.2 (by constructor <;> decide) (by decide) (by decide) rfl⟩

/-- C4 as stated fails on multi-segment paths: for the request path
/rooms/lobby the code binds the entire stripped path rooms/lobby as the
room name, while the trailing path segment is lobby. -/
theorem room_name_counterexample :
    (main_handler_setup ⟨[], []⟩ 0 "/rooms/lobby" (.frame (PyDict.ofList
      [("type", .str "register"), ("user_id", .str "a"),
        ("whitelist", .list starList)]))).1.clients =
      [(0, ⟨"a", "rooms/lobby", .wildcardList⟩)] ∧
    claimedRoomName "/rooms/lobby" = "lobby" ∧
    ("rooms/lobby" : String) ≠ "lobby" :=
  ⟨by decide, by decide, by decide⟩

/-- C4 amended: the room name bound into the session is the entire request
path with leading and trailing slashes removed (not only its trailing
segment); when that stripped path is empty the connection is closed with
policy-violation code 1008 before registration is attempted, the state is
unchanged and no session is ever created for the connection. -/
theorem room_name_amended (st : ServerState) (conn : Conn) (path : String)
    (ev : RegEvent) (s : Session) :
    (stripSlashes path = "" →
      main_handler_setup st conn path ev =
        (st, .closedNoRoom 1008
          "Room name must be provided in the URL path (e.g., /my-room).")) ∧
    (dget conn st.clients = Option.none →
      dget conn (main_handler_setup st conn path ev).1.clients = some s →
      s.room_name = stripSlashes path) := by
  constructor
  · intro h
    rw [main_handler_setup, if_pos h]
  · intro hfresh hget
    by_cases hr : stripSlashes path = ""
    · rw [main_handler_setup, if_pos hr] at hget
      rw [hfresh] at hget
      cases hget
    · rw [main_handler_setup, if_neg hr] at hget
      rcases register_client_state_cases st conn (stripSlashes path) ev with hcase | ⟨uid, wl, hcase⟩
      · rw [hcase, hfresh] at hget
        cases hget
      · rw [hcase] at hget
        rw [show (⟨dinsert conn ⟨uid, stripSlashes path, toWhitelist wl⟩ st.clients,
            dinsert uid conn st.user_id_map⟩ : ServerState).clients =
            dinsert conn ⟨uid, stripSlashes path, toWhitelist wl⟩ st.clients from rfl,
          dget_dinsert_self] at hget
        injection hget with hs2
        rw [← hs2]

/-- C3 as stated fails: validate_schema accepts a register message whose
whitelist contains a non-string element, so it does not require every
whitelist element to be a string as the claim demands. -/
theorem validator_counterexample :
    validate_schema (PyDict.ofList
      [("type", .str "register"), ("user_id", .str "u"),
        ("whitelist", .list (.cons (.int 1) .nil))]) = true ∧
    claimed_valid (PyDict.ofList
      [("type", .str "register"), ("user_id", .str "u"),
        ("whitelist", .list (.cons (.int 1) .nil))]) = false :=
  ⟨by decide, by decide⟩

/-- C3 amended: validate_schema is a pure boolean function that accepts a
decoded message exactly when its type field is a string naming one of the
five recognized types and every required field of the schema table is
present with the declared semantic type — where for register the
whitelist field need only be a list, its element types unchecked, and
payload need only be present. -/
theorem validator_amended_correct (d : PyDict) :
    validate_schema d = amended_valid d := by
  rw [validate_schema, amended_valid]
  cases hty : PyDict.get "type" d with
  | none => rfl
  | some v =>
    cases v with
    | str t =>
      by_cases h1 : t = "register"
      · subst h1
        simp only [schemaFields]
        cases hu : PyDict.get "user_id" d with
        | none => simp [hu]
        | some vu =>
          cases hw : PyDict.get "whitelist" d with
          | none => cases vu <;> simp [typeCheck, hu, hw]
          | some vw => cases vu <;> cases vw <;> simp [typeCheck, hu, hw]
      · by_cases h2 : t = "message"
        · subst h2
          simp only [schemaFields]
          cases hr : PyDict.get "recipient_id" d with
          | none => simp [PyDict.hasKey, hr]
          | some vr =>
            cases hp : PyDict.get "payload" d with
            | none => cases vr <;> simp [typeCheck, PyDict.hasKey, hr, hp]
            | some vp => cases vr <;> simp [typeCheck, PyDict.hasKey, hr, hp]
        · by_cases h3 : t = "whitelist_add"
          · subst h3
            simp only [schemaFields]
            cases hu : PyDict.get "user_id" d with
            | none => simp [hu, h1, h2]
            | some vu => cases vu <;> simp [typeCheck, hu, h1, h2]
          · by_cases h4 : t = "whitelist_remove"
            · subst h4
              simp only [schemaFields]
              cases hu : PyDict.get "user_id" d with
              | none => simp [hu, h1, h2]
              | some vu => cases vu <;> simp [typeCheck, hu, h1, h2]
            · by_cases h5 : t = "whitelist_toggle_wildcard"
              · subst h5
                simp only [schemaFields]
                cases he : PyDict.get "enabled" d with
                | none => simp [he, h1, h2, h3, h4]
                | some ve => cases ve <;> simp [typeCheck, he, h1, h2, h3, h4]
              · have hsf : schemaFields t = Option.none := by
                  rw [schemaFields.eq_def]
                  split
                  · exact absurd rfl h1
                  · exact absurd rfl h2
                  · exact absurd rfl h3
                  · exact absurd rfl h4
                  · exact absurd rfl h5
                  · rfl
                simp [hsf, h1, h2, h3, h4, h5]
    | int n => rfl
    | bool b => rfl
    | list xs => rfl
    | dict es => rfl
    | none => rfl

/-- C5: for a registered sender and a message whose recipient id resolves
through USER_ID_MAP, the payload is forwarded — as an incoming_message
carrying the sender's user id and the payload verbatim — exactly when the
recipient's room equals the sender's room and the recipient's whitelist is
the Wildcard marker or contains the sender's user id. -/
theorem routing_delivery_iff (st : ServerState) (sender_ws recipient_ws : Conn)
    (si ri : Session) (d : PyDict) (rid : String) (p : PyVal)
    (hs : dget sender_ws st.clients = some si)
    (hr : PyDict.get "recipient_id" d = some (.str rid))
    (hp : PyDict.get "payload" d = some p)
    (hm : dget rid st.user_id_map = some recipient_ws)
    (hc : dget recipient_ws st.clients = some ri) :
    handle_direct_message st sender_ws d =
        some [(recipient_ws, .dict (PyDict.ofList
          [("type", .str "incoming_message"),
           ("sender_id", .str si.user_id),
           ("payload", p)]))] ↔
      (ri.room_name = si.room_name ∧
        (ri.whitelist = .wildcardList ∨ allowedMember si.user_id ri.whitelist)) := by
  rw [handle_direct_message]
  simp only [hs, hr, hm, hc, hp]
  by_cases hB : ((ri.room_name == si.room_name) &&
      (wlEqStarList ri.whitelist || wlMember si.user_id ri.whitelist)) = true
  · rw [if_pos hB]
    rw [Bool.and_eq_true] at hB
    constructor
    · intro _
      exact ⟨by simpa using hB.1, (code_cond_iff _ _).1 hB.2⟩
    · intro _
      rfl
  · rw [if_neg hB]
    constructor
    · intro h
      injection h with h2
      simp [genericFailure, PyDict.ofList] at h2
    · rintro ⟨hroom, hcond⟩
      refine absurd ?_ hB
      rw [Bool.and_eq_true]
      exact ⟨by simpa using hroom, (code_cond_iff _ _).2 hcond⟩

theorem routing_delivery_iff_witness :
    handle_direct_message
        ⟨[(0, ⟨"b", "lobby", .allowed (.cons (.str "a") .nil)⟩),
          (1, ⟨"a", "lobby", .wildcardList⟩)],
         [("b", 0), ("a", 1)]⟩ 0
        (PyDict.ofList [("type", .str "message"), ("recipient_id", .str "a"),
          ("payload", .dict (.cons "x" (.int 1) .nil))]) =
      some [(1, .dict (PyDict.ofList
        [("type", .str "incoming_message"),
         ("sender_id", .str "b"),
         ("payload", .dict (.cons "x" (.int 1) .nil))]))] :=
  (routing_delivery_iff _ 0 1 ⟨"b", "lobby", .allowed (.cons (.str "a") .nil)⟩
      ⟨"a", "lobby", .wildcardList⟩ _ "a" (.dict (.cons "x" (.int 1) .nil))
      (by decide) (by decide) (by decide) (by decide) (by decide)).2
    ⟨rfl, Or.inl rfl⟩

/-- C6: two-run indistinguishability of routing failures: with the sender
and the recipient id fixed, the response sent when the recipient id is
absent from USER_ID_MAP is the very same value, genericFailure rid, as the
response sent when the recipient exists but the message is undeliverable
because of a room mismatch or a missing whitelist entry. -/
theorem routing_failure_uniform (st : ServerState) (sender_ws : Conn) (si : Session)
    (d : PyDict) (rid : String)
    (hs : dget sender_ws st.clients = some si)
    (hr : PyDict.get "recipient_id" d = some (.str rid)) :
    (dget rid st.user_id_map = Option.none →
      handle_direct_message st sender_ws d = some [(sender_ws, genericFailure rid)]) ∧
    (∀ rws ri, dget rid st.user_id_map = some rws →
      dget rws st.clients = some ri →
      ¬(ri.room_name = si.room_name ∧
        (ri.whitelist = .wildcardList ∨ allowedMember si.user_id ri.whitelist)) →
      handle_direct_message st sender_ws d = some [(sender_ws, genericFailure rid)]) := by
  constructor
  · intro habs
    rw [handle_direct_message]
    simp only [hs, hr, habs]
  · intro rws ri hm hc hnot
    rw [handle_direct_message]
    simp only [hs, hr, hm, hc]
    have hB : ¬(((ri.room_name == si.room_name) &&
        (wlEqStarList ri.whitelist || wlMember si.user_id ri.whitelist)) = true) := by
      intro h
      rw [Bool.and_eq_true] at h
      exact absurd ⟨by simpa using h.1, (code_cond_iff _ _).1 h.2⟩ hnot
    rw [if_neg hB]

theorem routing_failure_uniform_witness :
    handle_direct_message
        ⟨[(0, ⟨"b", "lobby", .wildcardList⟩)], [("b", 0)]⟩ 0
        (PyDict.ofList [("type", .str "message"), ("recipient_id", .str "a"),
          ("payload", .int 1)]) =
      some [(0, genericFailure "a")] ∧
    handle_direct_message
        ⟨[(0, ⟨"b", "lobby", .wildcardList⟩), (1, ⟨"a", "other", .wildcardList⟩)],
         [("b", 0), ("a", 1)]⟩ 0
        (PyDict.ofList [("type", .str "message"), ("recipient_id", .str "a"),
          ("payload", .int 1)]) =
      some [(0, genericFailure "a")] :=
  ⟨(routing_failure_uniform ⟨[(0, ⟨"b", "lobby", .wildcardList⟩)], [("b", 0)]⟩ 0
      ⟨"b", "lobby", .wildcardList⟩ _ "a" (by decide) (by decide)).1 (by decide),
   (routing_failure_uniform
      ⟨[(0, ⟨"b", "lobby", .wildcardList⟩), (1, ⟨"a", "other", .wildcardList⟩)],
        [("b", 0), ("a", 1)]⟩ 0
      ⟨"b", "lobby", .wildcardList⟩ _ "a" (by decide) (by decide)).2 1
      ⟨"a", "other", .wildcardList⟩ (by decide) (by decide)
      (by rintro ⟨hroom, _⟩; exact absurd hroom (by decide))⟩

theorem room_name_amended_witness :
    main_handler_setup ⟨[], []⟩ 0 "///" .timeout =
      (⟨[], []⟩, .closedNoRoom 1008
        "Room name must be provided in the URL path (e.g., /my-room).") ∧
    Session.room_name ⟨"a", "lobby", .wildcardList⟩ = stripSlashes "/lobby" :=
  ⟨(room_name_amended ⟨[], []⟩ 0 "///" .timeout ⟨"a", "lobby", .wildcardList⟩).1
      (by decide),
   (room_name_amended ⟨[], []⟩ 0 "/lobby"
      (.frame (PyDict.ofList [("type", .str "register"), ("user_id", .str "a"),
        ("whitelist", .list starList)])) ⟨"a", "lobby", .wildcardList⟩).2
      (by decide) (by decide)⟩

end Relay
